import Mathlib

set_option maxHeartbeats 1000000

namespace PhotoSort

/-! Shallow embedding of the PhotoSort core: the format-template engine of
`Analyzer::replace_filepath_parts` (src/lib.rs), the target-path construction and
duplicate resolution of `Analyzer::run_file` (src/lib.rs), the bracket-grouping
state machine of `main` / `drain_bracketed_queue` (src/main_impl.rs), and the
analysis dispatch of `Analyzer::analyze` (src/lib.rs).  Strings are modelled as
`List Char`; filesystem paths as lists of components; the external collaborators
(EXIF readers, name transformers, the filesystem existence check) are modelled
as function parameters, since they perform I/O. -/

/-! ### Template scanning (regex RE_DETECT_NAME_FORMAT_COMMAND and RE_COMMAND_SPLIT) -/

/-- A parsed template segment, mirroring the local `enum FormatString` of
`replace_filepath_parts`: literal text, or a command block carrying the label
(called `command_modifier` in the source) and the command text. -/
inductive Seg where
  | literal (text : List Char) : Seg
  | command (label : List Char) (cmd : List Char) : Seg
deriving DecidableEq

/-- Splits the inner text of a command block on the first colon, mirroring the
regex `RE_COMMAND_SPLIT`: if a colon occurs, the label is the text before the
first colon and the command is the rest; otherwise the label is empty and the
command is the whole inner text. -/
def splitCommand (inner : List Char) : List Char × List Char :=
  if inner.contains ':' then
    (inner.takeWhile (fun c => c != ':'), (inner.dropWhile (fun c => c != ':')).tail)
  else
    ([], inner)

/-- Leftmost match of the regex `RE_DETECT_NAME_FORMAT_COMMAND`: scanning left to
right for an opening brace followed (with no closing brace in between) by a
closing brace.  Returns the literal prefix before the match, the inner text of
the block, and the remainder after the closing brace; `none` when no block
occurs in the input (in particular when no closing brace follows any opening
brace). -/
def nextBlock : List Char → Option (List Char × List Char × List Char)
  | [] => none
  | c :: cs =>
    if c = '{' then
      if cs.contains '}' then
        some ([], cs.takeWhile (fun x => x != '}'), (cs.dropWhile (fun x => x != '}')).tail)
      else
        none
    else
      match nextBlock cs with
      | none => none
      | some (lit, inner, rest) => some (c :: lit, inner, rest)

theorem length_dropWhile_le {α : Type} (p : α → Bool) :
    ∀ l : List α, (l.dropWhile p).length ≤ l.length
  | [] => Nat.le_refl _
  | a :: l => by
    rw [List.dropWhile_cons]
    split
    · exact Nat.le_trans (length_dropWhile_le p l) (Nat.le_succ _)
    · exact Nat.le_refl _

theorem nextBlock_rest_length :
    ∀ (cs : List Char) {lit inner rest : List Char},
      nextBlock cs = some (lit, inner, rest) → rest.length < cs.length := by
  intro cs
  induction cs with
  | nil => intro lit inner rest h; simp [nextBlock] at h
  | cons c cs ih =>
    intro lit inner rest h
    simp only [nextBlock] at h
    split at h
    · split at h
      · simp only [Option.some.injEq, Prod.mk.injEq] at h
        obtain ⟨-, -, hr⟩ := h
        have h1 := length_dropWhile_le (fun x => x != '}') cs
        have h2 : ((cs.dropWhile (fun x => x != '}')).tail).length
            = (cs.dropWhile (fun x => x != '}')).length - 1 := List.length_tail _
        rw [← hr]
        simp only [List.length_cons]
        omega
      · exact absurd h (by simp)
    · split at h
      · exact absurd h (by simp)
      · rename_i lit' inner' rest' hnb
        simp only [Option.some.injEq, Prod.mk.injEq] at h
        obtain ⟨-, -, hr⟩ := h
        rw [← hr]
        exact Nat.lt_succ_of_lt (ih hnb)

/-- Fueled worker for the template scan: one unit of fuel per block found.  By
`nextBlock_rest_length` every block strictly shrinks the remaining input, so a
fuel equal to the input length always suffices and the zero-fuel-with-block
arm is unreachable from `scanTemplate`. -/
def scanTemplateAux : Nat → List Char → List Seg
  | fuel, cs =>
    match nextBlock cs with
    | none => if cs.isEmpty then [] else [Seg.literal cs]
    | some (lit, inner, rest) =>
      match fuel with
      | 0 => []
      | fuel' + 1 =>
        (if lit.isEmpty then [] else [Seg.literal lit]) ++
          Seg.command (splitCommand inner).1 (splitCommand inner).2 ::
            scanTemplateAux fuel' rest

/-- Scans a whole template into segments, mirroring the capture loop of
`replace_filepath_parts`: literal text between, before and after block matches
is kept (only when non-empty, as in the source, which pushes a literal only
when the byte range is non-empty), and each block becomes a command segment
after the label split. -/
def scanTemplate (cs : List Char) : List Seg :=
  scanTemplateAux cs.length cs

/-! ### Formatter registry (trait NameFormatter, loop in replace_filepath_parts) -/

/-- A name formatter strategy, mirroring the trait `NameFormatter`:
`captures` models `argument_template().captures(actual_command)` (the regex
capture attempt) and `replacement` models `replacement_text(matched, info)`.
The invocation-info type is a parameter; errors are message strings. -/
structure Formatter (Info : Type) where
  captures : List Char → Option (List (List Char))
  replacement : List (List Char) → Info → Except (List Char) (List Char)

/-- Errors produced while rendering a template, mirroring the `anyhow!` error
messages of `replace_filepath_parts` and `run_file`: a matched formatter whose
resolution failed (naming the command and the inner error), no formatter
matching the command (naming the command), a missing unknown-file format
string, and the outer wrapper added by `new_file_path`. -/
inductive RenderError where
  | formatterFailed (cmd : List Char) (err : List Char) : RenderError
  | noFormatter (cmd : List Char) : RenderError
  | noUnknownFormat : RenderError
  | wrapped (e : RenderError) : RenderError
deriving DecidableEq

/-- The inner formatter loop of `replace_filepath_parts`: formatters are tried
in registration order; the first whose pattern captures the command is invoked
and its result used (a failure is wrapped and propagated immediately); when no
formatter matches, the command is reported in a `noFormatter` error. -/
def findFormatter {Info : Type} (fs : List (Formatter Info)) (info : Info) (cmd : List Char) :
    Except RenderError (List Char) :=
  match fs with
  | [] => Except.error (RenderError.noFormatter cmd)
  | f :: rest =>
    match f.captures cmd with
    | some caps =>
      match f.replacement caps info with
      | Except.ok t => Except.ok t
      | Except.error e => Except.error (RenderError.formatterFailed cmd e)
    | none => findFormatter rest info cmd

/-- The label-prefix rule of `replace_filepath_parts`: when the substitution and
the label are both non-empty the label is prefixed, otherwise the substitution
is kept as is. -/
def applyLabel (label t : List Char) : List Char :=
  if t ≠ [] ∧ label ≠ [] then label ++ t else t

/-- Renders one segment: literals pass through; a command is resolved through
the registry and then receives the label prefix. -/
def renderSeg {Info : Type} (fs : List (Formatter Info)) (info : Info) :
    Seg → Except RenderError (List Char)
  | Seg.literal t => Except.ok t
  | Seg.command label cmd =>
    match findFormatter fs info cmd with
    | Except.error e => Except.error e
    | Except.ok t => Except.ok (applyLabel label t)

/-- Renders a segment list in order and joins the results, mirroring the final
`join("")` of `replace_filepath_parts`; the first error aborts rendering. -/
def renderSegs {Info : Type} (fs : List (Formatter Info)) (info : Info) :
    List Seg → Except RenderError (List Char)
  | [] => Except.ok []
  | s :: rest =>
    match renderSeg fs info s with
    | Except.error e => Except.error e
    | Except.ok t =>
      match renderSegs fs info rest with
      | Except.error e => Except.error e
      | Except.ok r => Except.ok (t ++ r)

/-- The whole of `replace_filepath_parts`: scan the format string into segments
and render them. -/
def renderTemplate {Info : Type} (fs : List (Formatter Info)) (info : Info) (cs : List Char) :
    Except RenderError (List Char) :=
  renderSegs fs info (scanTemplate cs)

/-- Decides whether a template contains a command block, i.e. whether the block
regex has any match: an opening brace with a closing brace somewhere after it. -/
def hasBlock : List Char → Bool
  | [] => false
  | c :: cs => if c = '{' then cs.contains '}' else hasBlock cs

/-! ### Target-path construction (closure new_file_path in Analyzer::run_file) -/

/-- The separator scrub applied to each rendered path component in `run_file`:
`component.replace("/", "").replace("\\", "")`. -/
def stripSeparators (cs : List Char) : List Char :=
  (cs.filter (fun c => c != '/')).filter (fun c => c != '\\')

/-- Renders every path component of the split format string, mirroring the
`path_split` collection in `new_file_path`: the first rendering error is
wrapped (message "Failed to format filename") and returned. -/
def renderEach {Info : Type} (fs : List (Formatter Info)) (info : Info) :
    List (List Char) → Except RenderError (List (List Char))
  | [] => Except.ok []
  | c :: rest =>
    match renderTemplate fs info c with
    | Except.error e => Except.error (RenderError.wrapped e)
    | Except.ok r =>
      match renderEach fs info rest with
      | Except.error e => Except.error e
      | Except.ok rs => Except.ok (r :: rs)

/-- The push loop of `new_file_path`: each rendered component is scrubbed of
path separators and, unless equal to the parent-directory component, pushed
onto the target path. -/
def pushComponents (target : List (List Char)) : List (List Char) → List (List Char)
  | [] => target
  | comp :: rest =>
    pushComponents
      (if stripSeparators comp = ['.', '.'] then target
       else target ++ [stripSeparators comp]) rest

/-- The closure `new_file_path` of `Analyzer::run_file`: split the format string
on the path separator, render each component, then build the target path from
the target directory. -/
def newFilePath {Info : Type} (fs : List (Formatter Info)) (info : Info)
    (targetDir : List (List Char)) (format : List Char) :
    Except RenderError (List (List Char)) :=
  match renderEach fs info (format.splitOn '/') with
  | Except.error e => Except.error e
  | Except.ok rs => Except.ok (pushComponents targetDir rs)

/-- The format-string selection of `new_file_path` in the provided lib.rs:
unknown-file format (an error when none is configured) if the file is flagged
unknown, else the dated format if a date was resolved, else the no-date
format. -/
def selectFormatString (isUnknownFile : Bool) (unknownFormat : Option (List Char))
    (hasDate : Bool) (fileFormat nodateFormat : List Char) :
    Except RenderError (List Char) :=
  if isUnknownFile then
    match unknownFormat with
    | none => Except.error RenderError.noUnknownFormat
    | some f => Except.ok f
  else if hasDate then Except.ok fileFormat
  else Except.ok nodateFormat

/-- Modelled from the spec: the bracket-aware template selection of the
`run_file` variant invoked by main_impl.rs (`run_file(&file, &bracket_info)`),
whose implementation is not part of the provided lib.rs (the provided lib.rs
holds the older `run_file(path, is_unknown_file)`).  Spec section 4.5 step 5:
select bracketed-format (if the file has bracket info and one is configured),
otherwise unknown-format (if flagged unknown), otherwise dated-format (if a
date was resolved), otherwise no-date-format; the non-bracket tail is exactly
the selection present in the provided lib.rs. -/
def selectFormatStringBracketed (hasBracketInfo : Bool) (bracketedFormat : Option (List Char))
    (isUnknownFile : Bool) (unknownFormat : Option (List Char))
    (hasDate : Bool) (fileFormat nodateFormat : List Char) :
    Except RenderError (List Char) :=
  match hasBracketInfo, bracketedFormat with
  | true, some bf => Except.ok bf
  | true, none => selectFormatString isUnknownFile unknownFormat hasDate fileFormat nodateFormat
  | false, _ => selectFormatString isUnknownFile unknownFormat hasDate fileFormat nodateFormat

/-! ### Duplicate resolution (while loop in Analyzer::run_file) -/

/-- The body of the duplicate-resolution `while new_path.exists()` loop of
`run_file`, made total with fuel: `render` abstracts the `new_file_path`
closure as a function of the duplicate counter (`none` meaning the counter is
unset) and `pathExists` abstracts the filesystem probe.  The result also
carries the final value of `dup_counter`; `none` models running out of fuel
(the source loop is unbounded), `some (Except.error e)` a rendering failure
propagated by the question-mark operator. -/
def dupLoopAux {E P : Type} (render : Option Nat → Except E P) (pathExists : P → Bool) :
    Nat → P → Nat → Option (Except E (P × Nat))
  | 0, p, ctr => if pathExists p then none else some (Except.ok (p, ctr))
  | fuel + 1, p, ctr =>
    if pathExists p then
      match render (some (ctr + 1)) with
      | Except.error e => some (Except.error e)
      | Except.ok p' => dupLoopAux render pathExists fuel p' (ctr + 1)
    else some (Except.ok (p, ctr))

/-- The duplicate resolver of `run_file`: first render with the counter unset,
then run the collision loop starting from counter 0. -/
def resolveDuplicatePath {E P : Type} (render : Option Nat → Except E P)
    (pathExists : P → Bool) (fuel : Nat) : Option (Except E (P × Nat)) :=
  match render none with
  | Except.error e => some (Except.error e)
  | Except.ok p => dupLoopAux render pathExists fuel p 0

/-! ### Bracket grouping state machine (main and drain_bracketed_queue, main_impl.rs) -/

/-- A discovered file, reduced to the data the grouper inspects: its parent
directory and a name distinguishing it. -/
structure BFile where
  parent : Nat
  fname : Nat
deriving DecidableEq

/-- The `BracketInfo` handed to `process_file` by `drain_bracketed_queue`:
first and last file of the group, the per-file sequence number, the group
length and the global group index. -/
structure BracketInfo where
  first : BFile
  last : BFile
  sequence_number : Nat
  sequence_length : Nat
  group_index : Nat
deriving DecidableEq

/-- One step of the file stream as seen by the grouper, mirroring the match on
`get_bracketing_info(&file)`: a bracketed file with its EXIF index
(`Ok(Some(info))`), a non-bracketed file (`Ok(None)`), or a detection error
(`Err(e)`). -/
inductive BEvent where
  | bracketed (f : BFile) (index : Nat) : BEvent
  | plain (f : BFile) : BEvent
  | errored (f : BFile) : BEvent
deriving DecidableEq

/-- The grouper state: the pending `bracketed_queue`, the global
`bracket_group_index` counter, and the ordered record of `process_file`
invocations (file together with the bracket info it was processed with). -/
structure GState where
  queue : List (BFile × Nat)
  groupIndex : Nat
  output : List (BFile × Option BracketInfo)
deriving DecidableEq

/-- The function `drain_bracketed_queue`: on a non-empty queue, emit one `BracketInfo`
template built from the first and last queued files, the queue length and the
current group index, process every queued file with its own sequence number,
increment the group index and clear the queue; an empty queue is left as is. -/
def drainQueue (s : GState) : GState :=
  match s.queue with
  | [] => s
  | first :: rest =>
    { queue := [],
      groupIndex := s.groupIndex + 1,
      output := s.output ++ (first :: rest).map (fun fi =>
        (fi.1, some { first := first.1,
                      last := ((first :: rest).getLast?.getD first).1,
                      sequence_number := fi.2,
                      sequence_length := (first :: rest).length,
                      group_index := s.groupIndex })) }

/-- One iteration of the file loop of `main` under bracket mode: a bracketed
file drains the queue when the queue's back entry has a different parent or a
non-consecutive index, then is enqueued; a non-bracketed file drains a
non-empty queue and is processed with no bracket info; a detection error logs
and processes the file with no bracket info, leaving the queue untouched. -/
def bracketStep (s : GState) : BEvent → GState
  | BEvent.bracketed f i =>
    let drain :=
      match s.queue.getLast? with
      | none => false
      | some lastE => (lastE.1.parent != f.parent) || (lastE.2 + 1 != i)
    let s1 := if drain then drainQueue s else s
    { s1 with queue := s1.queue ++ [(f, i)] }
  | BEvent.plain f =>
    let s1 := if s.queue.isEmpty then s else drainQueue s
    { s1 with output := s1.output ++ [(f, none)] }
  | BEvent.errored f =>
    { s with output := s.output ++ [(f, none)] }

/-- The initial grouper state of `main`: empty queue, group index 0. -/
def initialGState : GState := { queue := [], groupIndex := 0, output := [] }

/-- The whole grouping pass of `main`: fold the step over the file stream, then
drain any pending queue at end of stream. -/
def runGrouper (events : List BEvent) : GState :=
  let s := events.foldl bracketStep initialGState
  if s.queue.isEmpty then s else drainQueue s

/-! ### Analysis dispatch (Analyzer::analyze, src/lib.rs) -/

/-- The `AnalysisType` enumeration of lib.rs. -/
inductive AnalysisType where
  | onlyExif : AnalysisType
  | onlyName : AnalysisType
  | exifThenName : AnalysisType
  | nameThenExif : AnalysisType
deriving DecidableEq

/-- Errors of `Analyzer::analyze`: the invalid-extension rejection, an EXIF
analysis error wrapped with the "Error analyzing Exif data" message, or a
collaborator error propagated unwrapped by the question-mark operator. -/
inductive AnalysisError where
  | invalidExtension : AnalysisError
  | exifWrapped (e : List Char) : AnalysisError
  | collaborator (e : List Char) : AnalysisError
deriving DecidableEq

/-- The `match self.settings.analysis_type` dispatch of `Analyzer::analyze`,
with the collaborator calls `analyze_exif` and `analyze_name` abstracted as
their results (both perform I/O); `origName` is the raw file name used when
name analysis fails in the arms that tolerate such a failure. -/
def analyzeDispatch {D : Type} (atype : AnalysisType)
    (exifResult : Except (List Char) (Option D))
    (nameResult : Except (List Char) (Option D × List Char))
    (origName : List Char) : Except AnalysisError (Option D × List Char) :=
  match atype with
  | AnalysisType.onlyExif =>
    match exifResult with
    | Except.error e => Except.error (AnalysisError.exifWrapped e)
    | Except.ok d =>
      match nameResult with
      | Except.ok dn => Except.ok (d, dn.2)
      | Except.error _ => Except.ok (d, origName)
  | AnalysisType.onlyName =>
    match nameResult with
    | Except.error e => Except.error (AnalysisError.collaborator e)
    | Except.ok r => Except.ok r
  | AnalysisType.exifThenName =>
    match (match exifResult with
           | Except.error _ => none
           | Except.ok d => d) with
    | some d =>
      match nameResult with
      | Except.ok dn => Except.ok (some d, dn.2)
      | Except.error _ => Except.ok (some d, origName)
    | none =>
      match nameResult with
      | Except.error e => Except.error (AnalysisError.collaborator e)
      | Except.ok r => Except.ok r
  | AnalysisType.nameThenExif =>
    match nameResult with
    | Except.error e => Except.error (AnalysisError.collaborator e)
    | Except.ok (none, n) =>
      match exifResult with
      | Except.error e => Except.error (AnalysisError.collaborator e)
      | Except.ok d => Except.ok (d, n)
    | Except.ok (some d, n) => Except.ok (some d, n)

/-- The whole of `Analyzer::analyze` including the leading extension guard, with the
extension validity abstracted as a boolean (the check consults settings and
warns through the logger). -/
def analyzeFile {D : Type} (validExtension : Bool) (atype : AnalysisType)
    (exifResult : Except (List Char) (Option D))
    (nameResult : Except (List Char) (Option D × List Char))
    (origName : List Char) : Except AnalysisError (Option D × List Char) :=
  if validExtension then analyzeDispatch atype exifResult nameResult origName
  else Except.error AnalysisError.invalidExtension

/-! ### Helper lemmas -/

theorem drainQueue_queue_eq_nil (s : GState) : (drainQueue s).queue = [] := by
  unfold drainQueue
  cases hq : s.queue with
  | nil => exact hq
  | cons a l => rfl

/-! ### Concrete files used in grouper runs -/

def fA1 : BFile := { parent := 0, fname := 1 }

def fA2 : BFile := { parent := 0, fname := 2 }

def fA3 : BFile := { parent := 0, fname := 3 }

def fB1 : BFile := { parent := 1, fname := 4 }

def fErr : BFile := { parent := 0, fname := 9 }

/-- C2: on the bracketed stream (A,1),(A,2),(A,3),(B,1) the grouper emits
exactly two groups — the three A-files with sequence length 3 and group index
0, and the lone B-file with sequence length 1 and the strictly greater group
index 1 — and in general a bracketed file is appended to the queue when the
queue is empty or its back entry has the same parent and the predecessor
index, and otherwise drains the queue as a completed group and starts a new
one with itself. -/
theorem c2_bracket_grouper :
    ((runGrouper [BEvent.bracketed fA1 1, BEvent.bracketed fA2 2,
                  BEvent.bracketed fA3 3, BEvent.bracketed fB1 1]).output
        = [(fA1, some { first := fA1, last := fA3, sequence_number := 1,
                        sequence_length := 3, group_index := 0 }),
           (fA2, some { first := fA1, last := fA3, sequence_number := 2,
                        sequence_length := 3, group_index := 0 }),
           (fA3, some { first := fA1, last := fA3, sequence_number := 3,
                        sequence_length := 3, group_index := 0 }),
           (fB1, some { first := fB1, last := fB1, sequence_number := 1,
                        sequence_length := 1, group_index := 1 })])
    ∧ (∀ (s : GState) (f : BFile) (i : Nat),
        s.queue.getLast? = none →
          bracketStep s (BEvent.bracketed f i) = { s with queue := s.queue ++ [(f, i)] })
    ∧ (∀ (s : GState) (f : BFile) (i : Nat) (lf : BFile) (li : Nat),
        s.queue.getLast? = some (lf, li) → lf.parent = f.parent → li + 1 = i →
          bracketStep s (BEvent.bracketed f i) = { s with queue := s.queue ++ [(f, i)] })
    ∧ (∀ (s : GState) (f : BFile) (i : Nat) (lf : BFile) (li : Nat),
        s.queue.getLast? = some (lf, li) → (lf.parent ≠ f.parent ∨ li + 1 ≠ i) →
          bracketStep s (BEvent.bracketed f i)
            = { drainQueue s with queue := [(f, i)] }) := by
  refine ⟨by decide, ?_, ?_, ?_⟩
  · intro s f i h
    simp [bracketStep, h]
  · intro s f i lf li h hp hi
    simp [bracketStep, h, hp, hi]
  · intro s f i lf li h hcond
    have hdrain : ((lf.parent != f.parent) || (li + 1 != i)) = true := by
      rcases hcond with hc | hc <;> simp [hc]
    simp only [bracketStep, h, hdrain, if_true]
    have hq := drainQueue_queue_eq_nil s
    cases hds : drainQueue s with
    | mk q g o =>
      rw [hds] at hq
      simp at hq
      simp [hq]

/-- Witness for C2: the transition cases applied at concrete states — an empty
queue appends, a same-parent successor index appends, and a parent mismatch
drains the queue into a completed group before enqueueing. -/
theorem c2_bracket_grouper_witness :
    (bracketStep { queue := [], groupIndex := 0, output := [] } (BEvent.bracketed fA1 1)
        = { queue := [(fA1, 1)], groupIndex := 0, output := [] })
    ∧ (bracketStep { queue := [(fA1, 1)], groupIndex := 0, output := [] }
        (BEvent.bracketed fA2 2)
        = { queue := [(fA1, 1), (fA2, 2)], groupIndex := 0, output := [] })
    ∧ (bracketStep { queue := [(fA3, 3)], groupIndex := 0, output := [] }
        (BEvent.bracketed fB1 1)
        = { queue := [(fB1, 1)], groupIndex := 1,
            output := [(fA3, some { first := fA3, last := fA3, sequence_number := 3,
                                    sequence_length := 1, group_index := 0 })] }) := by
  refine ⟨?_, ?_, ?_⟩
  · exact c2_bracket_grouper.2.1 { queue := [], groupIndex := 0, output := [] } fA1 1 rfl
  · have h := c2_bracket_grouper.2.2.1 { queue := [(fA1, 1)], groupIndex := 0, output := [] }
      fA2 2 fA1 1 rfl rfl rfl
    exact h
  · have h := c2_bracket_grouper.2.2.2 { queue := [(fA3, 3)], groupIndex := 0, output := [] }
      fB1 1 fA3 3 rfl (Or.inl (by decide))
    exact h

/-- C5 counterexample: with the pending queue holding the bracketed file (A,1),
a bracket-detection error does not flush the queue — after the error step the
queue still holds (A,1) and the only processing so far is the erroring file
with no bracket info, so no group was emitted before it. -/
theorem c5_error_flush_counterexample :
    (bracketStep (bracketStep initialGState (BEvent.bracketed fA1 1))
        (BEvent.errored fErr)).queue = [(fA1, 1)]
    ∧ (bracketStep (bracketStep initialGState (BEvent.bracketed fA1 1))
        (BEvent.errored fErr)).output = [(fErr, none)] := by
  exact ⟨by decide, by decide⟩

/-- C5 amended: on a bracket-detection error the erroring file is processed
with no bracket info while the pending queue and the group counter are left
untouched — no flush occurs; consequently a bracket sequence continues across
an erroring file, as on the stream (A,1), error, (A,2), which yields one group
of length 2 spanning both A-files. -/
theorem c5_error_leaves_queue :
    (∀ (s : GState) (f : BFile),
        bracketStep s (BEvent.errored f)
          = { queue := s.queue, groupIndex := s.groupIndex,
              output := s.output ++ [(f, none)] })
    ∧ (runGrouper [BEvent.bracketed fA1 1, BEvent.errored fErr,
                   BEvent.bracketed fA2 2]).output
        = [(fErr, none),
           (fA1, some { first := fA1, last := fA2, sequence_number := 1,
                        sequence_length := 2, group_index := 0 }),
           (fA2, some { first := fA1, last := fA2, sequence_number := 2,
                        sequence_length := 2, group_index := 0 })] := by
  exact ⟨fun s f => rfl, by decide⟩

/-- C4: the template selection priority — the bracketed format when the file
has bracket info and one is configured, otherwise the unknown format when the
file is flagged unknown (an error when no unknown format is configured),
otherwise the dated format when a date was resolved, otherwise the no-date
format; on files without a usable bracketed format the selection coincides
with the selection implemented by new_file_path in the provided lib.rs. -/
theorem c4_template_selection :
    (∀ (b : List Char) (iu : Bool) (uf : Option (List Char)) (hd : Bool)
        (ff nf : List Char),
        selectFormatStringBracketed true (some b) iu uf hd ff nf = Except.ok b)
    ∧ (∀ (iu : Bool) (uf : Option (List Char)) (hd : Bool) (ff nf : List Char),
        selectFormatStringBracketed true none iu uf hd ff nf
          = selectFormatString iu uf hd ff nf)
    ∧ (∀ (bo : Option (List Char)) (iu : Bool) (uf : Option (List Char)) (hd : Bool)
        (ff nf : List Char),
        selectFormatStringBracketed false bo iu uf hd ff nf
          = selectFormatString iu uf hd ff nf)
    ∧ (∀ (u : List Char) (hd : Bool) (ff nf : List Char),
        selectFormatString true (some u) hd ff nf = Except.ok u)
    ∧ (∀ (hd : Bool) (ff nf : List Char),
        selectFormatString true none hd ff nf = Except.error RenderError.noUnknownFormat)
    ∧ (∀ (uf : Option (List Char)) (ff nf : List Char),
        selectFormatString false uf true ff nf = Except.ok ff)
    ∧ (∀ (uf : Option (List Char)) (ff nf : List Char),
        selectFormatString false uf false ff nf = Except.ok nf) := by
  refine ⟨fun _ _ _ _ _ _ => rfl, fun _ _ _ _ _ => rfl, ?_,
    fun _ _ _ _ => rfl, fun _ _ _ => rfl, fun _ _ _ => rfl, fun _ _ _ => rfl⟩
  intro bo iu uf hd ff nf
  cases bo <;> rfl

/-- C10: under OnlyExif analysis the name-analysis result still shapes the
outcome — on success its date is discarded but its transformed name is paired
with the EXIF date, on failure the error is swallowed and the original file
name is used — while an EXIF-analysis failure always fails the file with the
wrapped EXIF error. -/
theorem c10_only_exif_analysis :
    (∀ (D : Type) (d nd : Option D) (n orig : List Char),
        analyzeFile true AnalysisType.onlyExif (Except.ok d) (Except.ok (nd, n)) orig
          = Except.ok (d, n))
    ∧ (∀ (D : Type) (d : Option D) (e orig : List Char),
        analyzeFile true AnalysisType.onlyExif (Except.ok d) (Except.error e) orig
          = Except.ok (d, orig))
    ∧ (∀ (D : Type) (e : List Char)
        (nr : Except (List Char) (Option D × List Char)) (orig : List Char),
        analyzeFile true AnalysisType.onlyExif (Except.error e) nr orig
          = Except.error (AnalysisError.exifWrapped e)) := by
  exact ⟨fun _ _ _ _ _ => rfl, fun _ _ _ _ => rfl, fun _ _ _ _ => rfl⟩

theorem dupLoopAux_spec {E P : Type} (render : Option Nat → Except E P)
    (pathExists : P → Bool) (N : Nat) (pfun : Nat → P)
    (hrender : ∀ k, 1 ≤ k → k ≤ N → render (some k) = Except.ok (pfun k))
    (hcoll : ∀ k, k < N → pathExists (pfun k) = true)
    (hfree : pathExists (pfun N) = false) :
    ∀ (d j fuel : Nat), j + d = N → d ≤ fuel →
      dupLoopAux render pathExists fuel (pfun j) j = some (Except.ok (pfun N, N)) := by
  intro d
  induction d with
  | zero =>
    intro j fuel hj _
    have hjN : j = N := by omega
    subst hjN
    cases fuel with
    | zero => simp [dupLoopAux, hfree]
    | succ fuel => simp [dupLoopAux, hfree]
  | succ d ih =>
    intro j fuel hj hf
    have hjN : j < N := by omega
    obtain ⟨fuel', rfl⟩ : ∃ f', fuel = f' + 1 := ⟨fuel - 1, by omega⟩
    have hex := hcoll j hjN
    have hr := hrender (j + 1) (by omega) (by omega)
    simp only [dupLoopAux, hex, if_true, hr]
    exact ih (j + 1) fuel' (by omega) (by omega)

/-- C1: when the initially rendered path (duplicate counter unset) is free it
is used unchanged with the counter still 0; and when the paths rendered for
the unset counter and for counters 1..N-1 all exist while the path rendered
for counter N is free, the resolver probes the counters in strictly increasing
order without revisiting any, and returns the path rendered for counter N —
the (N+1)-th rendered path — with final counter N. -/
theorem c1_duplicate_resolution {E P : Type}
    (render : Option Nat → Except E P) (pathExists : P → Bool)
    (N fuel : Nat) (pfun : Nat → P)
    (hrender0 : render none = Except.ok (pfun 0))
    (hrender : ∀ k, 1 ≤ k → k ≤ N → render (some k) = Except.ok (pfun k))
    (hcoll : ∀ k, k < N → pathExists (pfun k) = true)
    (hfree : pathExists (pfun N) = false)
    (hfuel : N ≤ fuel) :
    resolveDuplicatePath render pathExists fuel = some (Except.ok (pfun N, N)) := by
  simp only [resolveDuplicatePath, hrender0]
  exact dupLoopAux_spec render pathExists N pfun hrender hcoll hfree N 0 fuel
    (by omega) hfuel

/-- Rendering collaborator for the C1 witness: the counter value itself is the
path, the unset counter rendering path 0. -/
def c1RenderEx : Option Nat → Except (List Char) Nat :=
  fun c => Except.ok (c.getD 0)

/-- Existence probe for the C1 witness: paths 0 and 1 already exist. -/
def c1ExistsEx : Nat → Bool := fun p => decide (p < 2)

/-- Witness for C1: against two pre-existing colliding paths the resolver
returns the third rendered path, with final counter 2. -/
theorem c1_duplicate_resolution_witness :
    resolveDuplicatePath c1RenderEx c1ExistsEx 5 = some (Except.ok (2, 2)) := by
  have h := c1_duplicate_resolution c1RenderEx c1ExistsEx 2 5 (fun k => k)
    rfl (fun k _ _ => rfl) (fun k hk => decide_eq_true hk) (by decide) (by omega)
  exact h

theorem findFormatter_skip {Info : Type} (info : Info) (cmd : List Char) :
    ∀ (pre rest : List (Formatter Info)), (∀ g ∈ pre, g.captures cmd = none) →
      findFormatter (pre ++ rest) info cmd = findFormatter rest info cmd := by
  intro pre
  induction pre with
  | nil => intro rest _; rfl
  | cons g pre ih =>
    intro rest hpre
    have hg := hpre g (List.mem_cons_self g pre)
    simp only [List.cons_append, findFormatter, hg]
    exact ih rest (fun g' hg' => hpre g' (List.mem_cons_of_mem g hg'))

theorem findFormatter_none {Info : Type} (info : Info) (cmd : List Char)
    (fs : List (Formatter Info)) (h : ∀ g ∈ fs, g.captures cmd = none) :
    findFormatter fs info cmd = Except.error (RenderError.noFormatter cmd) := by
  have h2 := findFormatter_skip info cmd fs [] h
  simpa using h2

theorem takeWhile_append_close (cmd : List Char) (h : cmd.contains '}' = false) :
    (cmd ++ ['}']).takeWhile (fun x => x != '}') = cmd ∧
      (cmd ++ ['}']).dropWhile (fun x => x != '}') = ['}'] := by
  induction cmd with
  | nil => exact ⟨rfl, rfl⟩
  | cons c cs ih =>
    simp only [List.contains_cons, Bool.or_eq_false_iff, beq_eq_false_iff_ne] at h
    obtain ⟨hc, hcs⟩ := h
    obtain ⟨h1, h2⟩ := ih hcs
    have hcb : (c != '}') = true := by
      simp [bne_iff_ne]
      exact fun he => hc he.symm
    constructor
    · simp only [List.cons_append, List.takeWhile_cons, hcb, if_true, h1]
    · simp only [List.cons_append, List.dropWhile_cons, hcb, if_true, h2]

theorem contains_append_close (cmd : List Char) : (cmd ++ ['}']).contains '}' = true := by
  induction cmd with
  | nil => rfl
  | cons c cs ih => simp [List.contains_cons, ih]

theorem nextBlock_single_block (cmd : List Char) (h : cmd.contains '}' = false) :
    nextBlock ('{' :: cmd ++ ['}']) = some ([], cmd, []) := by
  obtain ⟨h1, h2⟩ := takeWhile_append_close cmd h
  simp [nextBlock, contains_append_close, h1, h2]

theorem scanTemplateAux_nil (n : Nat) : scanTemplateAux n [] = [] := by
  cases n <;> rfl

theorem scanTemplate_nil : scanTemplate [] = [] := rfl

theorem scanTemplate_single_block (cmd : List Char)
    (hbr : cmd.contains '}' = false) (hcol : cmd.contains ':' = false) :
    scanTemplate ('{' :: cmd ++ ['}']) = [Seg.command [] cmd] := by
  have hnb := nextBlock_single_block cmd hbr
  have hmem : ':' ∉ cmd := by simpa using hcol
  unfold scanTemplate scanTemplateAux
  rw [hnb]
  simp [splitCommand, hmem, scanTemplateAux_nil, List.length_cons]

/-- C3: the first formatter (in registration order) whose pattern captures the
command decides the outcome — its successful replacement is returned with no
further search and its failure is propagated immediately, independently of any
later formatters; when no registered formatter captures the command the
registry fails with an error naming the command; and rendering a template
whose single block carries such an unmatched command fails with that error
instead of passing the block through as literal text. -/
theorem c3_formatter_first_match :
    (∀ (Info : Type) (pre post : List (Formatter Info)) (f : Formatter Info)
        (info : Info) (cmd : List Char) (caps : List (List Char)),
        (∀ g ∈ pre, g.captures cmd = none) → f.captures cmd = some caps →
          findFormatter (pre ++ f :: post) info cmd
            = (match f.replacement caps info with
               | Except.ok t => Except.ok t
               | Except.error e => Except.error (RenderError.formatterFailed cmd e)))
    ∧ (∀ (Info : Type) (fs : List (Formatter Info)) (info : Info) (cmd : List Char),
        (∀ g ∈ fs, g.captures cmd = none) →
          findFormatter fs info cmd = Except.error (RenderError.noFormatter cmd))
    ∧ (∀ (Info : Type) (fs : List (Formatter Info)) (info : Info) (cmd : List Char),
        cmd.contains '}' = false → cmd.contains ':' = false →
        (∀ g ∈ fs, g.captures cmd = none) →
          renderTemplate fs info ('{' :: cmd ++ ['}'])
            = Except.error (RenderError.noFormatter cmd)) := by
  refine ⟨?_, ?_, ?_⟩
  · intro Info pre post f info cmd caps hpre hf
    rw [findFormatter_skip info cmd pre (f :: post) hpre]
    simp only [findFormatter, hf]
  · intro Info fs info cmd h
    exact findFormatter_none info cmd fs h
  · intro Info fs info cmd hbr hcol h
    unfold renderTemplate
    rw [scanTemplate_single_block cmd hbr hcol]
    simp only [renderSegs, renderSeg, findFormatter_none info cmd fs h]

/-! ### Concrete formatters used in witnesses -/

/-- A formatter whose pattern matches no command. -/
def fmtNoMatch : Formatter Unit :=
  { captures := fun _ => none, replacement := fun _ _ => Except.ok [] }

/-- A formatter matching the command n and replacing it by N. -/
def fmtName : Formatter Unit :=
  { captures := fun cmd => if cmd = ['n'] then some [] else none,
    replacement := fun _ _ => Except.ok ['N'] }

/-- A formatter matching the command f whose resolution function fails. -/
def fmtFail : Formatter Unit :=
  { captures := fun cmd => if cmd = ['f'] then some [] else none,
    replacement := fun _ _ => Except.error ['e'] }

/-- A formatter matching the command d and producing empty replacement text. -/
def fmtEmpty : Formatter Unit :=
  { captures := fun cmd => if cmd = ['d'] then some [] else none,
    replacement := fun _ _ => Except.ok [] }

/-- Witness for C3: the matching formatter in second position wins over a
non-matching first one and its success is returned even with a failing
formatter registered after it; a failing matched formatter propagates its
error even with a succeeding formatter after it; an unmatched command yields
the error naming it, from the registry and from whole-template rendering. -/
theorem c3_formatter_first_match_witness :
    (findFormatter [fmtNoMatch, fmtName, fmtFail] () ['n'] = Except.ok ['N'])
    ∧ (findFormatter [fmtNoMatch, fmtFail, fmtName] () ['f']
        = Except.error (RenderError.formatterFailed ['f'] ['e']))
    ∧ (findFormatter [fmtNoMatch] () ['x'] = Except.error (RenderError.noFormatter ['x']))
    ∧ (renderTemplate [fmtNoMatch] () ['{', 'x', '}']
        = Except.error (RenderError.noFormatter ['x'])) := by
  refine ⟨?_, ?_, ?_, ?_⟩
  · exact c3_formatter_first_match.1 Unit [fmtNoMatch] [fmtFail] fmtName () ['n'] []
      (by intro g hg; rw [List.mem_singleton] at hg; subst hg; rfl) rfl
  · exact c3_formatter_first_match.1 Unit [fmtNoMatch] [fmtName] fmtFail () ['f'] []
      (by intro g hg; rw [List.mem_singleton] at hg; subst hg; rfl) rfl
  · exact c3_formatter_first_match.2.1 Unit [fmtNoMatch] () ['x']
      (by intro g hg; rw [List.mem_singleton] at hg; subst hg; rfl)
  · exact c3_formatter_first_match.2.2 Unit [fmtNoMatch] () ['x'] rfl rfl
      (by intro g hg; rw [List.mem_singleton] at hg; subst hg; rfl)

/-- C6: for a command block whose command resolves successfully to replacement
text t, a non-empty t with a non-empty label renders as the label concatenated
with t, while an empty t renders as the empty string regardless of the label —
no dangling separator is emitted. -/
theorem c6_label_rule :
    ∀ (Info : Type) (fs : List (Formatter Info)) (info : Info)
      (label cmd t : List Char),
      findFormatter fs info cmd = Except.ok t →
        (t ≠ [] → label ≠ [] →
          renderSeg fs info (Seg.command label cmd) = Except.ok (label ++ t))
        ∧ (t = [] → renderSeg fs info (Seg.command label cmd) = Except.ok []) := by
  intro Info fs info label cmd t h
  constructor
  · intro ht hl
    simp [renderSeg, h, applyLabel, ht, hl]
  · intro ht
    subst ht
    simp [renderSeg, h, applyLabel]

/-- Witness for C6: with a dash label, the command n resolving to N renders as
dash-N, while the command d resolving to empty text renders as the empty
string, the label dropped. -/
theorem c6_label_rule_witness :
    (findFormatter [fmtName, fmtEmpty] () ['n'] = Except.ok ['N']
      ∧ renderSeg [fmtName, fmtEmpty] () (Seg.command ['-'] ['n'])
          = Except.ok (['-'] ++ ['N']))
    ∧ (findFormatter [fmtName, fmtEmpty] () ['d'] = Except.ok []
      ∧ renderSeg [fmtName, fmtEmpty] () (Seg.command ['-'] ['d']) = Except.ok []) := by
  refine ⟨⟨rfl, ?_⟩, ⟨rfl, ?_⟩⟩
  · exact (c6_label_rule Unit [fmtName, fmtEmpty] () ['-'] ['n'] ['N'] rfl).1
      (by decide) (by decide)
  · exact (c6_label_rule Unit [fmtName, fmtEmpty] () ['-'] ['d'] [] rfl).2 rfl

theorem nextBlock_eq_none_of_no_block :
    ∀ cs : List Char, hasBlock cs = false → nextBlock cs = none := by
  intro cs
  induction cs with
  | nil => intro _; rfl
  | cons c cs ih =>
    intro h
    simp only [hasBlock] at h
    simp only [nextBlock]
    by_cases hc : c = '{'
    · rw [if_pos hc] at h
      rw [if_pos hc, h]
      simp
    · rw [if_neg hc] at h
      rw [if_neg hc, ih h]

theorem scanTemplate_of_none {cs : List Char} (h : nextBlock cs = none) :
    scanTemplate cs = if cs.isEmpty then [] else [Seg.literal cs] := by
  unfold scanTemplate scanTemplateAux
  rw [h]

/-- C7: a template containing no command block renders, against any formatter
registry and invocation context, to itself unchanged; in particular the empty
template renders to the empty string. -/
theorem c7_literal_template :
    ∀ (Info : Type) (fs : List (Formatter Info)) (info : Info) (cs : List Char),
      hasBlock cs = false → renderTemplate fs info cs = Except.ok cs := by
  intro Info fs info cs h
  have hn := nextBlock_eq_none_of_no_block cs h
  unfold renderTemplate
  rw [scanTemplate_of_none hn]
  cases cs with
  | nil => rfl
  | cons c cs' => simp [renderSegs, renderSeg]

/-- Witness for C7: a block-free literal name renders to itself against the
empty registry, and the empty template renders to the empty string. -/
theorem c7_literal_template_witness :
    (hasBlock ['a', '.', 'j'] = false
      ∧ renderTemplate ([] : List (Formatter Unit)) () ['a', '.', 'j']
          = Except.ok ['a', '.', 'j'])
    ∧ (hasBlock [] = false
      ∧ renderTemplate ([] : List (Formatter Unit)) () [] = Except.ok []) :=
  ⟨⟨by decide, c7_literal_template Unit [] () ['a', '.', 'j'] (by decide)⟩,
   ⟨rfl, c7_literal_template Unit [] () [] rfl⟩⟩

theorem except_bind_ok {ε α β : Type} (a : α) (f : α → Except ε β) :
    (Except.ok a >>= f) = f a := rfl

theorem except_bind_error {ε α β : Type} (e : ε) (f : α → Except ε β) :
    ((Except.error e : Except ε α) >>= f) = Except.error e := rfl

theorem except_pure {ε α : Type} (a : α) : (pure a : Except ε α) = Except.ok a := rfl

theorem pushComponents_eq :
    ∀ (rs target : List (List Char)),
      pushComponents target rs
        = target ++ (rs.map stripSeparators).filter (fun c => c != ['.', '.']) := by
  intro rs
  induction rs with
  | nil => intro t; simp [pushComponents]
  | cons comp rest ih =>
    intro t
    simp only [pushComponents]
    by_cases hc : stripSeparators comp = ['.', '.']
    · rw [if_pos hc, ih]
      have hb : (stripSeparators comp != ['.', '.']) = false := by simp [hc]
      simp [List.filter_cons, hb]
    · rw [if_neg hc, ih]
      have hb : (stripSeparators comp != ['.', '.']) = true := by
        simp only [bne_iff_ne, ne_eq]
        exact hc
      simp [List.filter_cons, hb]

/-- C8: the format string is split on the path separator and each component is
rendered independently (monadically, left to right, the first failure wrapped
and propagated); every rendered component that scrubs to the parent-directory
component is silently dropped — no error — and all other components are
appended, in order, under the target directory. -/
theorem c8_path_components :
    (∀ (Info : Type) (fs : List (Formatter Info)) (info : Info)
        (targetDir : List (List Char)) (format : List Char) (rs : List (List Char)),
        renderEach fs info (format.splitOn '/') = Except.ok rs →
          newFilePath fs info targetDir format
            = Except.ok (targetDir
                ++ (rs.map stripSeparators).filter (fun c => c != ['.', '.'])))
    ∧ (∀ (Info : Type) (fs : List (Formatter Info)) (info : Info)
        (comps : List (List Char)),
        renderEach fs info comps
          = Except.mapError RenderError.wrapped
              (comps.mapM (renderTemplate fs info))) := by
  constructor
  · intro Info fs info targetDir format rs h
    simp only [newFilePath, h]
    rw [pushComponents_eq]
  · intro Info fs info comps
    induction comps with
    | nil => rfl
    | cons c rest ih =>
      rw [List.mapM_cons]
      cases hr : renderTemplate fs info c with
      | error e =>
        simp [renderEach, hr, except_bind_error, Except.mapError]
      | ok r =>
        cases hrest : rest.mapM (renderTemplate fs info) with
        | error e =>
          have hrest2 : List.mapM.loop (renderTemplate fs info) rest []
              = Except.error e := hrest
          simp [renderEach, hr, ih, hrest, hrest2, except_bind_ok,
            except_bind_error, Except.mapError]
        | ok rs =>
          have hrest2 : List.mapM.loop (renderTemplate fs info) rest []
              = Except.ok rs := hrest
          simp [renderEach, hr, ih, hrest, hrest2, except_bind_ok, except_pure,
            Except.mapError]

/-- Witness for C8: rendering the template a/../(n-block) against the registry
holding the name formatter renders three components, of which the
parent-directory one is dropped, the others appended under the target
directory. -/
theorem c8_path_components_witness :
    (renderEach [fmtName] () ((['a', '/', '.', '.', '/', '{', 'n', '}']).splitOn '/')
        = Except.ok [['a'], ['.', '.'], ['N']])
    ∧ (newFilePath [fmtName] () [['t']] ['a', '/', '.', '.', '/', '{', 'n', '}']
        = Except.ok ([['t']]
            ++ ([['a'], ['.', '.'], ['N']].map stripSeparators).filter
                (fun c => c != ['.', '.']))) := by
  refine ⟨rfl, ?_⟩
  exact c8_path_components.1 Unit [fmtName] () [['t']]
    ['a', '/', '.', '.', '/', '{', 'n', '}'] [['a'], ['.', '.'], ['N']] rfl

theorem stripSeparators_no_seps (cs : List Char) :
    '/' ∉ stripSeparators cs ∧ '\\' ∉ stripSeparators cs := by
  constructor
  · intro hmem
    simp only [stripSeparators, List.mem_filter] at hmem
    exact absurd hmem.1.2 (by simp)
  · intro hmem
    simp only [stripSeparators, List.mem_filter] at hmem
    exact absurd hmem.2 (by simp)

/-- C9: every component the path builder appends under the target directory
has first been scrubbed of every slash and backslash, so no rendered
replacement text can introduce additional directory levels beyond the
template's own separators — each appended component is a single path
element. -/
theorem c9_single_path_elements :
    ∀ (Info : Type) (fs : List (Formatter Info)) (info : Info)
      (targetDir : List (List Char)) (format : List Char) (p : List (List Char)),
      newFilePath fs info targetDir format = Except.ok p →
        ∃ added, p = targetDir ++ added
          ∧ ∀ comp ∈ added, '/' ∉ comp ∧ '\\' ∉ comp := by
  intro Info fs info targetDir format p h
  unfold newFilePath at h
  cases hr : renderEach fs info (format.splitOn '/') with
  | error e => rw [hr] at h; exact absurd h (by simp)
  | ok rs =>
    rw [hr] at h
    simp only [Except.ok.injEq] at h
    refine ⟨(rs.map stripSeparators).filter (fun c => c != ['.', '.']), ?_, ?_⟩
    · rw [← h, pushComponents_eq]
    · intro comp hcomp
      have hmap : comp ∈ rs.map stripSeparators := List.mem_of_mem_filter hcomp
      obtain ⟨c, -, hc⟩ := List.mem_map.mp hmap
      rw [← hc]
      exact stripSeparators_no_seps c

/-- Witness for C9: on the concrete rendered path of the C8 scenario every
appended component is free of slashes and backslashes. -/
theorem c9_single_path_elements_witness :
    (newFilePath [fmtName] () [['t']] ['a', '/', '.', '.', '/', '{', 'n', '}']
        = Except.ok [['t'], ['a'], ['N']])
    ∧ ∃ added, [['t'], ['a'], ['N']] = [['t']] ++ added
        ∧ ∀ comp ∈ added, '/' ∉ comp ∧ '\\' ∉ comp := by
  refine ⟨rfl, ?_⟩
  exact c9_single_path_elements Unit [fmtName] () [['t']]
    ['a', '/', '.', '.', '/', '{', 'n', '}'] [['t'], ['a'], ['N']] rfl

end PhotoSort
